import Mathlib

/-!
Verification of the DICOM anonymizer's tag-rewrite policy and directory walk.

A parsed DICOM data-set is modelled as an association list of
(attribute name, attribute value) pairs; the core only tests presence of an
attribute and overwrites the value of a present attribute, which matches the
shallow view the Python code takes of the external `pydicom` record.
Filesystem effects (read, save, backup, directory creation) are modelled by
explicit success oracles and by returning the record that would be written.
-/

/-- A parsed DICOM record: association list from attribute name to value. -/
abbrev DicomRecord := List (String × String)

/-- `tag in ds`: the record has an attribute with this name. -/
def hasTag (ds : DicomRecord) (t : String) : Bool :=
  ds.any (fun p => p.1 == t)

/-- Read the value of an attribute (first entry with the given name). -/
def getTag : DicomRecord → String → Option String
  | [], _ => none
  | p :: rest, t => if p.1 == t then some p.2 else getTag rest t

/-- `ds[tag].value = v`: overwrite the value of every entry with this name. -/
def setTag (ds : DicomRecord) (t : String) (v : String) : DicomRecord :=
  ds.map (fun p => if p.1 == t then (p.1, v) else p)

/-- Python `needle in hay` on strings: substring test, over char lists. -/
def containsSubAux (needle : List Char) : List Char → Bool
  | [] => needle.isEmpty
  | c :: rest => needle.isPrefixOf (c :: rest) || containsSubAux needle rest

/-- Python `needle in hay` substring test on strings. -/
def containsSub (needle hay : String) : Bool :=
  containsSubAux needle.data hay.data

/-- Python `s.lower()` (character-wise lowering). -/
def toLowerStr (s : String) : String := String.mk (s.data.map Char.toLower)

/-- Python `s.endswith(t)`. -/
def strEndsWith (s t : String) : Bool := List.isSuffixOf t.data s.data

/-- Python `c in s` for a single character. -/
def strContainsChar (s : String) (c : Char) : Bool := s.data.contains c

/-- `FIXED_VALUES` from `dicom_anonymizer.py`: fixed anonymization values. -/
def FIXED_VALUES : List (String × String) := [
  ("PatientBirthDate", "19000101"),
  ("PatientSex", "O"),
  ("PatientAge", "000Y"),
  ("StudyDate", "20000101"),
  ("SeriesDate", "20000101"),
  ("AcquisitionDate", "20000101"),
  ("ContentDate", "20000101"),
  ("StudyTime", "120000"),
  ("SeriesTime", "120000"),
  ("AcquisitionTime", "120000"),
  ("ContentTime", "120000")]

/-- `TAGS_TO_ANONYMIZE` from `dicom_anonymizer.py`. -/
def TAGS_TO_ANONYMIZE : List String := [
  "PatientName", "PatientID", "PatientBirthDate", "PatientSex", "PatientAge",
  "PatientAddress", "PatientMotherBirthName", "PatientTelephoneNumbers",
  "InstitutionName", "InstitutionAddress", "ReferringPhysicianName",
  "PerformingPhysicianName", "OperatorsName", "PhysiciansOfRecord",
  "StudyDescription", "SeriesDescription", "StudyComments", "ImageComments",
  "StudyDate", "SeriesDate", "AcquisitionDate", "ContentDate",
  "StudyTime", "SeriesTime", "AcquisitionTime", "ContentTime"]

/-- `TAGS_TO_EMPTY` from `dicom_anonymizer.py`. -/
def TAGS_TO_EMPTY : List String := [
  "PatientAddress", "PatientTelephoneNumbers", "InstitutionAddress",
  "StudyComments", "ImageComments", "PatientMotherBirthName"]

/-- The value the if/elif chain in `anonymize_dicom_file` assigns to a present
tag: empty set first, then PatientName/PatientID, then the fixed-value map,
then the Description/Name substring heuristic, else the supplied id. -/
def ruleValue (patient_id : String) (tag : String) : String :=
  if TAGS_TO_EMPTY.contains tag then ""
  else if tag == "PatientName" || tag == "PatientID" then patient_id
  else match FIXED_VALUES.lookup tag with
    | some v => v
    | none =>
      if containsSub "Description" tag || containsSub "Name" tag then "ANONYMIZED"
      else patient_id

/-- One iteration of the tag loop: skip an absent tag; on a present tag, an
assignment failure (oracle `assignFails`) is logged and skipped, otherwise the
value determined by `val` is assigned. -/
def rewriteStep (val : String → String) (assignFails : String → Bool)
    (ds : DicomRecord) (tag : String) : DicomRecord :=
  if hasTag ds tag then
    if assignFails tag then ds else setTag ds tag (val tag)
  else ds

/-- The tag loop of `anonymize_dicom_file` over the whole policy table. -/
def anonymizeTags (patient_id : String) (assignFails : String → Bool)
    (ds : DicomRecord) : DicomRecord :=
  TAGS_TO_ANONYMIZE.foldl (rewriteStep (ruleValue patient_id) assignFails) ds

/-- The no-failure oracle: every attribute assignment succeeds. -/
def noFailure : String → Bool := fun _ => false

/-- `anonymize_dicom_file`: read (`readResult`, `none` when `dcmread` raises),
rewrite the tags, then persist (`saveOk` covers `makedirs` + `save_as`).
Returns the record written to the output path (if any) and the bool result. -/
def anonymize_dicom_file (readResult : Option DicomRecord) (saveOk : Bool)
    (assignFails : String → Bool) (patient_id : String) :
    Option DicomRecord × Bool :=
  match readResult with
  | none => (none, false)
  | some ds =>
      let ds2 := anonymizeTags patient_id assignFails ds
      if saveOk then (some ds2, true) else (none, false)

/-- The `stats` dictionary of `anonymize_directory`. -/
structure Stats where
  total_files : Nat
  anonymized : Nat
  failed : Nat
  skipped : Nat
deriving Repr, DecidableEq

/-- One file met by the walk: its path relative to the input root (as
components, the last being the filename), its filename, and the outcome
oracle of `anonymize_dicom_file` on it. -/
structure WalkFile where
  rel : List String
  name : String
  anonOk : Bool
deriving Repr, DecidableEq

/-- Classification in `anonymize_directory`:
`filename.lower().endswith('.dcm') or not '.' in filename`. -/
def isDicomLike (filename : String) : Bool :=
  strEndsWith (toLowerStr filename) ".dcm" || !(strContainsChar filename '.')

/-- Running state of the walk: the counters plus the output paths written. -/
structure WalkState where
  stats : Stats
  outputs : List (List String)
deriving Repr, DecidableEq

/-- The body of the walk loop for one file: bump `total_files`, classify, then
either anonymize (output written on success) or copy (output always written). -/
def processFile (outputRoot : List String) (st : WalkState) (f : WalkFile) :
    WalkState :=
  let stats1 : Stats := { st.stats with total_files := st.stats.total_files + 1 }
  if isDicomLike f.name then
    if f.anonOk then
      { stats := { stats1 with anonymized := stats1.anonymized + 1 },
        outputs := st.outputs ++ [outputRoot ++ f.rel] }
    else
      { stats := { stats1 with failed := stats1.failed + 1 },
        outputs := st.outputs }
  else
    { stats := { stats1 with skipped := stats1.skipped + 1 },
      outputs := st.outputs ++ [outputRoot ++ f.rel] }

/-- Result of `anonymize_directory`: the returned stats (`none` when the input
root is missing), the outputs written, and whether the output root was made. -/
structure WalkResult where
  stats : Option Stats
  outputs : List (List String)
  outputRootCreated : Bool
deriving Repr, DecidableEq

/-- Initial `stats` of a walk; no output written yet. -/
def initState : WalkState := ⟨⟨0, 0, 0, 0⟩, []⟩

/-- `anonymize_directory`: fail fast with `None` when the input root is
missing; otherwise create the output root and fold the loop body over all
files found by `os.walk` (in its traversal order). -/
def anonymize_directory (inputExists : Bool) (outputRoot : List String)
    (files : List WalkFile) : WalkResult :=
  if inputExists then
    let fin := files.foldl (processFile outputRoot) initState
    ⟨some fin.stats, fin.outputs, true⟩
  else ⟨none, [], false⟩

/-- How the run in `main` ended: `anonymize_directory` returned, or
`KeyboardInterrupt`, or some other exception escaped. -/
inductive RunOutcome where
  | completed (stats : Option Stats)
  | interrupted
  | unexpectedError
deriving DecidableEq

/-- The `sys.exit` code chosen by `main` for each outcome. -/
def mainExit (o : RunOutcome) : Nat :=
  match o with
  | .completed (some s) => if s.failed = 0 then 0 else 1
  | .completed none => 2
  | .interrupted => 130
  | .unexpectedError => 1

/-- The output path the walk writes for one file: a mirrored path for a
successfully anonymized DICOM-like file and for every copied opaque file,
nothing for a failed DICOM-like file. -/
def expectedOutput (outputRoot : List String) (f : WalkFile) :
    Option (List String) :=
  if isDicomLike f.name then
    (if f.anonOk then some (outputRoot ++ f.rel) else none)
  else some (outputRoot ++ f.rel)

/-- Modelled from the spec's classification sentence, for comparison with the
code's `isDicomLike`: a file is DICOM-like iff its name ends with the
recognized DICOM extension, case-insensitive ".dcm", or has no dot at all. -/
def specDicomLike (filename : String) : Bool :=
  strEndsWith (toLowerStr filename) ".dcm" || !(strContainsChar filename '.')

/-- The date and time attributes of the fixed-value map named by the claim. -/
def dateTimeTags : List String := [
  "PatientBirthDate", "StudyDate", "SeriesDate", "AcquisitionDate",
  "ContentDate", "StudyTime", "SeriesTime", "AcquisitionTime", "ContentTime"]

/-- The per-attribute constant documented by the claim: birth date
"19000101", the study/series/acquisition/content dates "20000101", and the
corresponding times "120000". -/
def claimedDateTimeValue (tag : String) : String :=
  if tag = "PatientBirthDate" then "19000101"
  else if tag = "StudyDate" ∨ tag = "SeriesDate" ∨ tag = "AcquisitionDate"
      ∨ tag = "ContentDate" then "20000101"
  else "120000"

namespace OldAnon

/-- `DICOM_TAGS_TO_ANONYMIZE` from `old/anon.py`. -/
def DICOM_TAGS_TO_ANONYMIZE : List String := [
  "PatientName", "PatientID", "PatientBirthDate", "PatientSex", "PatientAge",
  "PatientAddress", "PatientMotherBirthName", "PatientTelephoneNumbers",
  "PatientWeight", "PatientHeight", "EthnicGroup", "Occupation",
  "InstitutionName", "InstitutionAddress", "ReferringPhysicianName",
  "ReadingPhysicianName", "PerformingPhysicianName", "OperatorsName",
  "PhysiciansOfRecord", "RequestingPhysician",
  "StudyDescription", "SeriesDescription", "StudyComments",
  "ImageComments", "RequestedProcedureComments",
  "ClinicalTrialSubjectID", "ClinicalTrialSubjectReadingID",
  "ClinicalTrialProtocolName", "ClinicalTrialCoordinatingCenterName",
  "ClinicalTrialSponsorName", "DeviceSerialNumber",
  "StudyDate", "SeriesDate", "AcquisitionDate", "ContentDate",
  "StudyTime", "SeriesTime", "AcquisitionTime", "ContentTime"]

/-- `TAGS_TO_EMPTY` from `old/anon.py`. -/
def TAGS_TO_EMPTY : List String := [
  "PatientAddress", "PatientTelephoneNumbers", "InstitutionAddress",
  "StudyComments", "ImageComments", "RequestedProcedureComments"]

/-- Oracle for the pseudo-random value generators of `old/anon.py` (one run's
draws: `generate_random_birthdate`, `generate_random_date`,
`generate_random_time`, the random sex choice, the random age). -/
structure Gen where
  birthdate : String
  randomDate : String
  randomTime : String
  sex : String
  age : String

/-- The value the if/elif chain in `modify_single_dcm` assigns to a present
tag: empty set, then the Date/Time substring tests, then sex/age, else the
supplied `newvalue`. -/
def oldRuleValue (g : Gen) (newvalue : String) (tag : String) : String :=
  if TAGS_TO_EMPTY.contains tag then ""
  else if containsSub "Date" tag then
    (if tag == "PatientBirthDate" then g.birthdate else g.randomDate)
  else if containsSub "Time" tag then g.randomTime
  else if tag == "PatientSex" then g.sex
  else if tag == "PatientAge" then g.age
  else newvalue

/-- One iteration of the tag loop of `modify_single_dcm`, carrying the record
together with the cumulative `modified` flag; a per-tag assignment failure
leaves both unchanged (`continue` before `modified = True`). -/
def oldStep (g : Gen) (newvalue : String) (assignFails : String → Bool)
    (p : DicomRecord × Bool) (tag : String) : DicomRecord × Bool :=
  if hasTag p.1 tag then
    if assignFails tag then p
    else (setTag p.1 tag (oldRuleValue g newvalue tag), true)
  else p

/-- Observable outcome of `modify_single_dcm`: the record written back to the
file (if any), whether the `.backup` sibling was created, and the returned
bool. -/
structure SingleResult where
  saved : Option DicomRecord
  backupCreated : Bool
  success : Bool
deriving Repr, DecidableEq

/-- `modify_single_dcm` from `old/anon.py`: read, loop over the tags keeping
the `modified` flag, and only when some tag was modified create the backup
copy and save in place (`backupOk`/`saveOk` model `copy2`/`save_as` failing,
which the outer `except` turns into a `False` return). -/
def modify_single_dcm (readResult : Option DicomRecord) (tags : List String)
    (newvalue : String) (g : Gen) (assignFails : String → Bool)
    (backupOk saveOk : Bool) : SingleResult :=
  match readResult with
  | none => ⟨none, false, false⟩
  | some ds =>
      let r := tags.foldl (oldStep g newvalue assignFails) (ds, false)
      if r.2 then
        if backupOk then
          if saveOk then ⟨some r.1, true, true⟩ else ⟨none, true, false⟩
        else ⟨none, false, false⟩
      else ⟨none, false, false⟩

end OldAnon

example : isDicomLike "scan.dcm" = true := by decide
example : isDicomLike "notes.txt" = false := by decide
example : isDicomLike "IMG001" = true := by decide
example : ruleValue "P" "PatientMotherBirthName" = "" := by decide
example : ruleValue "P" "StudyDate" = "20000101" := by decide
example : ruleValue "P" "InstitutionName" = "ANONYMIZED" := by decide
example : ruleValue "P" "PatientSex" = "O" := by decide

/-! ### Association-list lemmas for the record operations -/

theorem setTag_cons_pos (p : String × String) (rest : DicomRecord) (t v : String)
    (h : (p.1 == t) = true) :
    setTag (p :: rest) t v = (p.1, v) :: setTag rest t v := by
  have h' : p.1 = t := by simpa using h
  simp [setTag, h']

theorem setTag_cons_neg (p : String × String) (rest : DicomRecord) (t v : String)
    (h : (p.1 == t) = false) :
    setTag (p :: rest) t v = p :: setTag rest t v := by
  have h' : ¬p.1 = t := by simpa using h
  simp [setTag, h']

theorem getTag_cons_pos (p : String × String) (rest : DicomRecord) (s : String)
    (h : (p.1 == s) = true) : getTag (p :: rest) s = some p.2 := by
  simp [getTag, h]

theorem getTag_cons_neg (p : String × String) (rest : DicomRecord) (s : String)
    (h : (p.1 == s) = false) : getTag (p :: rest) s = getTag rest s := by
  have h' : ¬p.1 = s := by simpa using h
  simp [getTag, h']

theorem hasTag_setTag (ds : DicomRecord) (t v s : String) :
    hasTag (setTag ds t v) s = hasTag ds s := by
  induction ds with
  | nil => rfl
  | cons p rest ih =>
      cases hp : (p.1 == t) with
      | false =>
          rw [setTag_cons_neg _ _ _ _ hp]
          show ((p.1 == s) || hasTag (setTag rest t v) s) = ((p.1 == s) || hasTag rest s)
          rw [ih]
      | true =>
          rw [setTag_cons_pos _ _ _ _ hp]
          show ((p.1 == s) || hasTag (setTag rest t v) s) = ((p.1 == s) || hasTag rest s)
          rw [ih]

theorem getTag_setTag_self (ds : DicomRecord) (t v : String)
    (h : hasTag ds t = true) : getTag (setTag ds t v) t = some v := by
  induction ds with
  | nil => simp [hasTag] at h
  | cons p rest ih =>
      cases hp : (p.1 == t) with
      | false =>
          have h' : ((p.1 == t) || hasTag rest t) = true := h
          rw [hp, Bool.false_or] at h'
          rw [setTag_cons_neg _ _ _ _ hp, getTag_cons_neg _ _ _ hp]
          exact ih h'
      | true =>
          rw [setTag_cons_pos _ _ _ _ hp]
          exact getTag_cons_pos (p.1, v) _ _ hp

theorem getTag_setTag_ne (ds : DicomRecord) (t v s : String)
    (h : (s == t) = false) : getTag (setTag ds t v) s = getTag ds s := by
  induction ds with
  | nil => rfl
  | cons p rest ih =>
      cases hp : (p.1 == t) with
      | false =>
          rw [setTag_cons_neg _ _ _ _ hp]
          cases hs : (p.1 == s) with
          | false => rw [getTag_cons_neg p _ _ hs, getTag_cons_neg p _ _ hs, ih]
          | true => rw [getTag_cons_pos p _ _ hs, getTag_cons_pos p _ _ hs]
      | true =>
          rw [setTag_cons_pos _ _ _ _ hp]
          have hs : (p.1 == s) = false := by
            have ht : p.1 = t := by simpa using hp
            have hst : ¬s = t := by simpa using h
            subst ht
            simp only [beq_eq_false_iff_ne]
            exact fun hh => hst hh.symm
          rw [getTag_cons_neg (p.1, v) _ _ hs, getTag_cons_neg p _ _ hs, ih]

theorem setTag_eq_self (ds : DicomRecord) (t v : String)
    (h : ∀ p ∈ ds, p.1 = t → p.2 = v) : setTag ds t v = ds := by
  induction ds with
  | nil => rfl
  | cons p rest ih =>
      have hrest : ∀ q ∈ rest, q.1 = t → q.2 = v :=
        fun q hq => h q (List.mem_cons_of_mem _ hq)
      cases hp : (p.1 == t) with
      | false => rw [setTag_cons_neg _ _ _ _ hp, ih hrest]
      | true =>
          have h1 : p.1 = t := by simpa using hp
          have h2 : p.2 = v := h p (List.mem_cons_self _ _) h1
          rw [setTag_cons_pos _ _ _ _ hp, ih hrest, ← h2]

theorem allVals_setTag (ds : DicomRecord) (t v : String) :
    ∀ p ∈ setTag ds t v, p.1 = t → p.2 = v := by
  intro p hp hkey
  unfold setTag at hp
  obtain ⟨q, hq, hfq⟩ := List.mem_map.mp hp
  by_cases hc : (q.1 == t) = true
  · rw [if_pos hc] at hfq
    rw [← hfq]
  · rw [if_neg hc] at hfq
    subst hfq
    exact absurd hkey (by simpa using hc)

theorem allVals_setTag_ne (ds : DicomRecord) (t t' v v' : String)
    (hne : (t' == t) = false) (h : ∀ p ∈ ds, p.1 = t → p.2 = v) :
    ∀ p ∈ setTag ds t' v', p.1 = t → p.2 = v := by
  intro p hp hkey
  obtain ⟨q, hq, hfq⟩ := List.mem_map.mp hp
  by_cases hc : (q.1 == t') = true
  · rw [if_pos hc] at hfq
    subst hfq
    have hq1 : q.1 = t' := by simpa using hc
    have : t' = t := by rw [← hq1]; exact hkey
    exact absurd this (by simpa using hne)
  · rw [if_neg hc] at hfq
    subst hfq
    exact h q hq hkey

/-! ### Lemmas on the tag-rewrite loop -/

theorem hasTag_rewriteStep (val : String → String) (f : String → Bool)
    (ds : DicomRecord) (tag s : String) :
    hasTag (rewriteStep val f ds tag) s = hasTag ds s := by
  unfold rewriteStep
  split
  · split
    · rfl
    · exact hasTag_setTag ds tag (val tag) s
  · rfl

theorem hasTag_rewriteFold (val : String → String) (f : String → Bool)
    (ts : List String) (ds : DicomRecord) (s : String) :
    hasTag (ts.foldl (rewriteStep val f) ds) s = hasTag ds s := by
  induction ts generalizing ds with
  | nil => rfl
  | cons t rest ih =>
      show hasTag (rest.foldl (rewriteStep val f) (rewriteStep val f ds t)) s
          = hasTag ds s
      rw [ih, hasTag_rewriteStep]

theorem getTag_rewriteStep_ne (val : String → String) (f : String → Bool)
    (ds : DicomRecord) (tag s : String) (h : (s == tag) = false) :
    getTag (rewriteStep val f ds tag) s = getTag ds s := by
  unfold rewriteStep
  split
  · split
    · rfl
    · exact getTag_setTag_ne ds tag (val tag) s h
  · rfl

theorem getTag_rewriteFold_not_mem (val : String → String) (f : String → Bool)
    (ts : List String) (ds : DicomRecord) (s : String) (h : s ∉ ts) :
    getTag (ts.foldl (rewriteStep val f) ds) s = getTag ds s := by
  induction ts generalizing ds with
  | nil => rfl
  | cons t rest ih =>
      have h1 : s ≠ t := fun e => h (by simp [e])
      have h2 : s ∉ rest := fun m => h (List.mem_cons_of_mem _ m)
      show getTag (rest.foldl (rewriteStep val f) (rewriteStep val f ds t)) s
          = getTag ds s
      rw [ih _ h2, getTag_rewriteStep_ne val f ds t s (by simpa using h1)]

theorem rewriteStep_set (val : String → String) (f : String → Bool)
    (ds : DicomRecord) (tag : String)
    (hpres : hasTag ds tag = true) (hfail : f tag = false) :
    rewriteStep val f ds tag = setTag ds tag (val tag) := by
  unfold rewriteStep
  rw [hpres, hfail]
  simp

theorem getTag_rewriteFold_set (val : String → String) (f : String → Bool)
    (l1 l2 : List String) (tag : String) (ds : DicomRecord)
    (hnotin : tag ∉ l2) (hfail : f tag = false) (hpres : hasTag ds tag = true) :
    getTag ((l1 ++ tag :: l2).foldl (rewriteStep val f) ds) tag = some (val tag) := by
  rw [List.foldl_append]
  have hpres1 : hasTag (l1.foldl (rewriteStep val f) ds) tag = true := by
    rw [hasTag_rewriteFold]
    exact hpres
  show getTag (l2.foldl (rewriteStep val f)
      (rewriteStep val f (l1.foldl (rewriteStep val f) ds) tag)) tag = some (val tag)
  rw [getTag_rewriteFold_not_mem _ _ _ _ _ hnotin,
    rewriteStep_set val f _ tag hpres1 hfail]
  exact getTag_setTag_self _ _ _ hpres1

theorem getTag_rewriteFold_mem (val : String → String) (f : String → Bool)
    (ts : List String) (ds : DicomRecord) (tag : String)
    (hnd : ts.Nodup) (hmem : tag ∈ ts) (hfail : f tag = false)
    (hpres : hasTag ds tag = true) :
    getTag (ts.foldl (rewriteStep val f) ds) tag = some (val tag) := by
  obtain ⟨l1, l2, rfl⟩ := List.append_of_mem hmem
  have hsub : (tag :: l2).Sublist (l1 ++ tag :: l2) :=
    List.sublist_append_right l1 (tag :: l2)
  have hnotin : tag ∉ l2 := (List.nodup_cons.mp (hnd.sublist hsub)).1
  exact getTag_rewriteFold_set val f l1 l2 tag ds hnotin hfail hpres

theorem allVals_rewriteStep_ne (val : String → String) (f : String → Bool)
    (ds : DicomRecord) (tag t : String) (v : String) (hne : (tag == t) = false)
    (h : ∀ p ∈ ds, p.1 = t → p.2 = v) :
    ∀ p ∈ rewriteStep val f ds tag, p.1 = t → p.2 = v := by
  unfold rewriteStep
  split
  · split
    · exact h
    · exact allVals_setTag_ne ds t tag v (val tag) hne h
  · exact h

theorem allVals_rewriteFold_not_mem (val : String → String) (f : String → Bool)
    (ts : List String) (ds : DicomRecord) (t v : String)
    (hnotin : t ∉ ts) (h : ∀ p ∈ ds, p.1 = t → p.2 = v) :
    ∀ p ∈ ts.foldl (rewriteStep val f) ds, p.1 = t → p.2 = v := by
  induction ts generalizing ds with
  | nil => exact h
  | cons tg rest ih =>
      have h1 : tg ≠ t := fun e => hnotin (by simp [e])
      have h2 : t ∉ rest := fun m => hnotin (List.mem_cons_of_mem _ m)
      exact ih _ h2 (allVals_rewriteStep_ne val f ds tg t v (by simpa using h1) h)

theorem allVals_rewriteFold_set (val : String → String) (f : String → Bool)
    (l1 l2 : List String) (tag : String) (ds : DicomRecord)
    (hnotin : tag ∉ l2) (hfail : f tag = false) (hpres : hasTag ds tag = true) :
    ∀ p ∈ (l1 ++ tag :: l2).foldl (rewriteStep val f) ds,
      p.1 = tag → p.2 = val tag := by
  rw [List.foldl_append]
  have hpres1 : hasTag (l1.foldl (rewriteStep val f) ds) tag = true := by
    rw [hasTag_rewriteFold]
    exact hpres
  have hbase : ∀ p ∈ rewriteStep val f (l1.foldl (rewriteStep val f) ds) tag,
      p.1 = tag → p.2 = val tag := by
    rw [rewriteStep_set val f _ tag hpres1 hfail]
    exact allVals_setTag _ _ _
  exact allVals_rewriteFold_not_mem val f l2 _ tag (val tag) hnotin hbase

theorem allVals_rewriteFold_mem (val : String → String) (f : String → Bool)
    (ts : List String) (ds : DicomRecord) (tag : String)
    (hnd : ts.Nodup) (hmem : tag ∈ ts) (hfail : f tag = false)
    (hpres : hasTag ds tag = true) :
    ∀ p ∈ ts.foldl (rewriteStep val f) ds, p.1 = tag → p.2 = val tag := by
  obtain ⟨l1, l2, rfl⟩ := List.append_of_mem hmem
  have hsub : (tag :: l2).Sublist (l1 ++ tag :: l2) :=
    List.sublist_append_right l1 (tag :: l2)
  have hnotin : tag ∉ l2 := (List.nodup_cons.mp (hnd.sublist hsub)).1
  exact allVals_rewriteFold_set val f l1 l2 tag ds hnotin hfail hpres

theorem rewriteFold_id (val : String → String) (f : String → Bool)
    (ts : List String) (ds : DicomRecord)
    (h : ∀ t ∈ ts, hasTag ds t = true → f t = false →
      ∀ p ∈ ds, p.1 = t → p.2 = val t) :
    ts.foldl (rewriteStep val f) ds = ds := by
  induction ts with
  | nil => rfl
  | cons tg rest ih =>
      have hstep : rewriteStep val f ds tg = ds := by
        unfold rewriteStep
        split_ifs with h1 h2
        · rfl
        · exact setTag_eq_self ds tg (val tg)
            (h tg (List.mem_cons_self _ _) h1 (by simpa using h2))
        · rfl
      show rest.foldl (rewriteStep val f) (rewriteStep val f ds tg) = ds
      rw [hstep]
      exact ih (fun t ht => h t (List.mem_cons_of_mem _ ht))

theorem nodup_tagsToAnonymize : TAGS_TO_ANONYMIZE.Nodup := by decide

/-! ### Lemmas on the directory walk -/

theorem processFile_counters (outputRoot : List String) (st : WalkState)
    (f : WalkFile) :
    (processFile outputRoot st f).stats.total_files = st.stats.total_files + 1
  ∧ (processFile outputRoot st f).stats.anonymized
      + (processFile outputRoot st f).stats.failed
      + (processFile outputRoot st f).stats.skipped
    = st.stats.anonymized + st.stats.failed + st.stats.skipped + 1 := by
  unfold processFile
  split_ifs <;> simp <;> omega

theorem walkFold_counters (outputRoot : List String) (files : List WalkFile)
    (st : WalkState)
    (h : st.stats.total_files
      = st.stats.anonymized + st.stats.failed + st.stats.skipped) :
    (files.foldl (processFile outputRoot) st).stats.total_files
      = (files.foldl (processFile outputRoot) st).stats.anonymized
        + (files.foldl (processFile outputRoot) st).stats.failed
        + (files.foldl (processFile outputRoot) st).stats.skipped := by
  induction files generalizing st with
  | nil => exact h
  | cons f rest ih =>
      refine ih (processFile outputRoot st f) ?_
      obtain ⟨h1, h2⟩ := processFile_counters outputRoot st f
      omega

theorem processFile_outputs (outputRoot : List String) (st : WalkState)
    (f : WalkFile) :
    (processFile outputRoot st f).outputs
      = st.outputs ++ (expectedOutput outputRoot f).toList := by
  unfold processFile expectedOutput
  split_ifs <;> simp

theorem walkFold_outputs (outputRoot : List String) (files : List WalkFile)
    (st : WalkState) :
    (files.foldl (processFile outputRoot) st).outputs
      = st.outputs ++ files.filterMap (expectedOutput outputRoot) := by
  induction files generalizing st with
  | nil => simp
  | cons f rest ih =>
      show (rest.foldl (processFile outputRoot) (processFile outputRoot st f)).outputs
          = st.outputs ++ (f :: rest).filterMap (expectedOutput outputRoot)
      rw [ih, processFile_outputs]
      cases hc : expectedOutput outputRoot f <;>
        simp [List.filterMap_cons, hc]

/-! ### Lemmas on the in-place variant -/

theorem oldFold_absent (g : OldAnon.Gen) (newvalue : String)
    (assignFails : String → Bool) (tags : List String) (ds : DicomRecord)
    (b : Bool) (h : ∀ tag ∈ tags, hasTag ds tag = false) :
    tags.foldl (OldAnon.oldStep g newvalue assignFails) (ds, b) = (ds, b) := by
  induction tags with
  | nil => rfl
  | cons t rest ih =>
      have hstep : OldAnon.oldStep g newvalue assignFails (ds, b) t = (ds, b) := by
        unfold OldAnon.oldStep
        simp [h t (List.mem_cons_self _ _)]
      show rest.foldl (OldAnon.oldStep g newvalue assignFails)
          (OldAnon.oldStep g newvalue assignFails (ds, b) t) = (ds, b)
      rw [hstep]
      exact ih (fun tg ht => h tg (List.mem_cons_of_mem _ ht))

/-! ### The claims -/

/-- Claim C1: for every attribute in the policy table present in the record,
the rewrite applied by `anonymize_dicom_file` resolves in this precedence
order: the empty set wins, then PatientName/PatientID get the supplied
identifier, then the fixed-value map, then the Description/Name substring
heuristic gives "ANONYMIZED", else the supplied identifier; in particular
PatientMotherBirthName is emptied, and a present tag's post-rewrite value is
exactly the resolved one. -/
theorem C1_rule_precedence (patient_id tag : String) :
    (TAGS_TO_EMPTY.contains tag = true → ruleValue patient_id tag = "")
  ∧ (TAGS_TO_EMPTY.contains tag = false →
      (tag = "PatientName" ∨ tag = "PatientID") →
      ruleValue patient_id tag = patient_id)
  ∧ (∀ v, TAGS_TO_EMPTY.contains tag = false →
      tag ≠ "PatientName" → tag ≠ "PatientID" →
      FIXED_VALUES.lookup tag = some v → ruleValue patient_id tag = v)
  ∧ (TAGS_TO_EMPTY.contains tag = false →
      tag ≠ "PatientName" → tag ≠ "PatientID" →
      FIXED_VALUES.lookup tag = none →
      (containsSub "Description" tag || containsSub "Name" tag) = true →
      ruleValue patient_id tag = "ANONYMIZED")
  ∧ (TAGS_TO_EMPTY.contains tag = false →
      tag ≠ "PatientName" → tag ≠ "PatientID" →
      FIXED_VALUES.lookup tag = none →
      (containsSub "Description" tag || containsSub "Name" tag) = false →
      ruleValue patient_id tag = patient_id)
  ∧ ruleValue patient_id "PatientMotherBirthName" = ""
  ∧ (∀ ds : DicomRecord, tag ∈ TAGS_TO_ANONYMIZE → hasTag ds tag = true →
      getTag (anonymizeTags patient_id noFailure ds) tag
        = some (ruleValue patient_id tag)) := by
  refine ⟨?_, ?_, ?_, ?_, ?_, rfl, ?_⟩
  · intro h
    unfold ruleValue
    rw [if_pos h]
  · rintro h0 (rfl | rfl) <;> rfl
  · intro v h0 h1 h2 h3
    unfold ruleValue
    rw [if_neg (by simp only [h0]; exact Bool.false_ne_true),
      if_neg (by simp [beq_eq_false_iff_ne.mpr h1, beq_eq_false_iff_ne.mpr h2]),
      h3]
  · intro h0 h1 h2 h3 h4
    unfold ruleValue
    rw [if_neg (by simp only [h0]; exact Bool.false_ne_true),
      if_neg (by simp [beq_eq_false_iff_ne.mpr h1, beq_eq_false_iff_ne.mpr h2]),
      h3]
    exact if_pos h4
  · intro h0 h1 h2 h3 h4
    unfold ruleValue
    rw [if_neg (by simp only [h0]; exact Bool.false_ne_true),
      if_neg (by simp [beq_eq_false_iff_ne.mpr h1, beq_eq_false_iff_ne.mpr h2]),
      h3]
    exact if_neg (by simp [h4])
  · intro ds hmem hpres
    exact getTag_rewriteFold_mem (ruleValue patient_id) noFailure
      TAGS_TO_ANONYMIZE ds tag nodup_tagsToAnonymize hmem rfl hpres

/-- Witness for C1 at concrete tags: PatientMotherBirthName (in both the
empty set and the Name heuristic) is emptied, StudyDescription gets
"ANONYMIZED", and PhysiciansOfRecord falls through to the identifier. -/
theorem C1_rule_precedence_witness :
    TAGS_TO_EMPTY.contains "PatientMotherBirthName" = true
  ∧ ruleValue "ANON_001" "PatientMotherBirthName" = ""
  ∧ ruleValue "ANON_001" "StudyDescription" = "ANONYMIZED"
  ∧ ruleValue "ANON_001" "PhysiciansOfRecord" = "ANON_001" := by
  refine ⟨by decide, (C1_rule_precedence "ANON_001" "PatientMotherBirthName").1
    (by decide), ?_, ?_⟩
  · exact (C1_rule_precedence "ANON_001" "StudyDescription").2.2.2.1
      (by decide) (by decide) (by decide) (by decide) (by decide)
  · exact (C1_rule_precedence "ANON_001" "PhysiciansOfRecord").2.2.2.2.1
      (by decide) (by decide) (by decide) (by decide) (by decide)

/-- Claim C2: per-attribute failures are isolated — the bool returned by
`anonymize_dicom_file` equals read-success AND persist-success regardless of
the per-attribute failure oracle, the file is persisted exactly when both
hold, and every present, non-failing policy attribute is still rewritten to
its resolved value whatever the oracle does elsewhere. -/
theorem C2_failure_isolation (readResult : Option DicomRecord) (saveOk : Bool)
    (assignFails : String → Bool) (patient_id : String) :
    ((anonymize_dicom_file readResult saveOk assignFails patient_id).2
      = (readResult.isSome && saveOk))
  ∧ ((anonymize_dicom_file readResult saveOk assignFails patient_id).1.isSome
      = (readResult.isSome && saveOk))
  ∧ (∀ ds, readResult = some ds → saveOk = true →
      (anonymize_dicom_file readResult saveOk assignFails patient_id).1
        = some (anonymizeTags patient_id assignFails ds))
  ∧ (∀ ds tag, tag ∈ TAGS_TO_ANONYMIZE → assignFails tag = false →
      hasTag ds tag = true →
      getTag (anonymizeTags patient_id assignFails ds) tag
        = some (ruleValue patient_id tag)) := by
  refine ⟨?_, ?_, ?_, ?_⟩
  · unfold anonymize_dicom_file
    cases readResult <;> cases saveOk <;> simp
  · unfold anonymize_dicom_file
    cases readResult <;> cases saveOk <;> simp
  · intro ds h hs
    subst h
    subst hs
    unfold anonymize_dicom_file
    simp
  · intro ds tag hmem hfail hpres
    exact getTag_rewriteFold_mem (ruleValue patient_id) assignFails
      TAGS_TO_ANONYMIZE ds tag nodup_tagsToAnonymize hmem hfail hpres

/-- Witness for C2: with an oracle that fails exactly on StudyDate, the file
outcome is still success and PatientID is still rewritten. -/
theorem C2_failure_isolation_witness :
    ("PatientID" ∈ TAGS_TO_ANONYMIZE
      ∧ hasTag [("PatientID", "X"), ("StudyDate", "19990101")] "PatientID" = true)
  ∧ (anonymize_dicom_file (some [("PatientID", "X"), ("StudyDate", "19990101")])
      true (fun t => t == "StudyDate") "ANON_001").2 = true
  ∧ getTag (anonymizeTags "ANON_001" (fun t => t == "StudyDate")
      [("PatientID", "X"), ("StudyDate", "19990101")]) "PatientID"
      = some (ruleValue "ANON_001" "PatientID") := by
  refine ⟨⟨by decide, by decide⟩, ?_, ?_⟩
  · exact ((C2_failure_isolation (some [("PatientID", "X"), ("StudyDate", "19990101")])
      true (fun t => t == "StudyDate") "ANON_001").1).trans (by decide)
  · exact (C2_failure_isolation (some [("PatientID", "X"), ("StudyDate", "19990101")])
      true (fun t => t == "StudyDate") "ANON_001").2.2.2
      [("PatientID", "X"), ("StudyDate", "19990101")] "PatientID"
      (by decide) (by decide) (by decide)

/-- Claim C3: after a walk over an existing input root, the counters satisfy
total_files = anonymized + failed + skipped (the skipped counter is the
copied-non-DICOM count). -/
theorem C3_counter_invariant (outputRoot : List String) (files : List WalkFile)
    (s : Stats)
    (h : (anonymize_directory true outputRoot files).stats = some s) :
    s.total_files = s.anonymized + s.failed + s.skipped := by
  unfold anonymize_directory at h
  simp only [if_true, Option.some.injEq] at h
  subst h
  exact walkFold_counters outputRoot files initState rfl

/-- Witness for C3 on a three-file walk: one anonymized, one failed, one
copied. -/
theorem C3_counter_invariant_witness :
    (anonymize_directory true ["out"]
      [⟨["x.dcm"], "x.dcm", true⟩, ⟨["y.dcm"], "y.dcm", false⟩,
       ⟨["n.txt"], "n.txt", true⟩]).stats = some ⟨3, 1, 1, 1⟩
  ∧ (3 : Nat) = 1 + 1 + 1 := by
  constructor
  · decide
  · exact C3_counter_invariant ["out"]
      [⟨["x.dcm"], "x.dcm", true⟩, ⟨["y.dcm"], "y.dcm", false⟩,
       ⟨["n.txt"], "n.txt", true⟩] ⟨3, 1, 1, 1⟩ (by decide)

/-- Claim C4: the walker classifies a filename as DICOM-like iff it ends with
the recognized extension ".dcm" case-insensitively or contains no dot at all;
"scan.dcm" and "IMG001" are DICOM-like, "notes.txt" is opaque. -/
theorem C4_classification :
    (∀ filename, isDicomLike filename = specDicomLike filename)
  ∧ isDicomLike "scan.dcm" = true
  ∧ isDicomLike "notes.txt" = false
  ∧ isDicomLike "IMG001" = true :=
  ⟨fun _ => rfl, by decide, by decide, by decide⟩

/-- Claim C5: under fixed mode every present date or time attribute of the
fixed-value map is rewritten to its documented constant. -/
theorem C5_fixed_datetime (patient_id : String) (ds : DicomRecord)
    (tag : String) (hmem : tag ∈ dateTimeTags) (hpres : hasTag ds tag = true) :
    getTag (anonymizeTags patient_id noFailure ds) tag
      = some (claimedDateTimeValue tag) := by
  fin_cases hmem <;>
    exact (getTag_rewriteFold_mem (ruleValue patient_id) noFailure
      TAGS_TO_ANONYMIZE ds _ nodup_tagsToAnonymize (by decide) rfl hpres).trans rfl

/-- Witness for C5: a record carrying a StudyDate is rewritten to
"20000101". -/
theorem C5_fixed_datetime_witness :
    ("StudyDate" ∈ dateTimeTags
      ∧ hasTag [("StudyDate", "20240315")] "StudyDate" = true)
  ∧ getTag (anonymizeTags "ANON_001" noFailure [("StudyDate", "20240315")])
      "StudyDate" = some (claimedDateTimeValue "StudyDate") :=
  ⟨⟨by decide, by decide⟩,
    C5_fixed_datetime "ANON_001" [("StudyDate", "20240315")] "StudyDate"
      (by decide) (by decide)⟩

/-- Claim C6: under fixed mode (no per-attribute failure) the tag rewrite of a
record is idempotent: applying it twice with the same supplied identifier
equals applying it once. -/
theorem C6_rewrite_idempotent (patient_id : String) (ds : DicomRecord) :
    anonymizeTags patient_id noFailure (anonymizeTags patient_id noFailure ds)
      = anonymizeTags patient_id noFailure ds := by
  show TAGS_TO_ANONYMIZE.foldl (rewriteStep (ruleValue patient_id) noFailure)
      (anonymizeTags patient_id noFailure ds)
    = anonymizeTags patient_id noFailure ds
  apply rewriteFold_id
  intro t ht hpres _
  have hpres0 : hasTag ds t = true := by
    unfold anonymizeTags at hpres
    rwa [hasTag_rewriteFold] at hpres
  exact allVals_rewriteFold_mem (ruleValue patient_id) noFailure
    TAGS_TO_ANONYMIZE ds t nodup_tagsToAnonymize ht rfl hpres0

/-- Claim C7: a missing input root makes the walk return `None` (no stats at
all, so zero files are processed), leaves the output root uncreated, and
`main` then exits with status 2. -/
theorem C7_missing_input_root (outputRoot : List String)
    (files : List WalkFile) :
    anonymize_directory false outputRoot files
      = { stats := none, outputs := [], outputRootCreated := false }
  ∧ mainExit (.completed (anonymize_directory false outputRoot files).stats)
      = 2 :=
  ⟨rfl, rfl⟩

/-- Claim C8: the process exit status is 0 for a completed run with zero
failed files, 1 for a completed run with failures or an unexpected error,
2 when the input directory is missing, and 130 on user interrupt. -/
theorem C8_exit_codes (s : Stats) (outputRoot : List String)
    (files : List WalkFile) :
    (s.failed = 0 → mainExit (.completed (some s)) = 0)
  ∧ (s.failed ≠ 0 → mainExit (.completed (some s)) = 1)
  ∧ mainExit (.completed none) = 2
  ∧ mainExit (.completed (anonymize_directory false outputRoot files).stats)
      = 2
  ∧ mainExit .unexpectedError = 1
  ∧ mainExit .interrupted = 130 := by
  refine ⟨?_, ?_, rfl, rfl, rfl, rfl⟩
  · intro h
    simp [mainExit, h]
  · intro h
    simp [mainExit, h]

/-- Witness for C8: a run with no failures exits 0, a run with one failure
exits 1. -/
theorem C8_exit_codes_witness :
    mainExit (.completed (some ⟨3, 3, 0, 0⟩)) = 0
  ∧ mainExit (.completed (some ⟨3, 2, 1, 0⟩)) = 1 :=
  ⟨(C8_exit_codes ⟨3, 3, 0, 0⟩ [] []).1 rfl,
    (C8_exit_codes ⟨3, 2, 1, 0⟩ [] []).2.1 (by decide)⟩

/-- Claim C9: when every DICOM-like file succeeds, the walk writes, for every
file at relative path p under the input root, an output at outputRoot ++ p;
and every output path it ever writes is outputRoot ++ (some input file's
relative path). -/
theorem C9_directory_mirroring (outputRoot : List String)
    (files : List WalkFile)
    (hall : ∀ f ∈ files, isDicomLike f.name = true → f.anonOk = true) :
    (∀ f ∈ files,
      (outputRoot ++ f.rel) ∈ (anonymize_directory true outputRoot files).outputs)
  ∧ (∀ o ∈ (anonymize_directory true outputRoot files).outputs,
      ∃ f ∈ files, o = outputRoot ++ f.rel) := by
  have houts : (anonymize_directory true outputRoot files).outputs
      = files.filterMap (expectedOutput outputRoot) := by
    show (files.foldl (processFile outputRoot) initState).outputs
        = files.filterMap (expectedOutput outputRoot)
    rw [walkFold_outputs]
    rfl
  constructor
  · intro f hf
    rw [houts]
    apply List.mem_filterMap.mpr
    refine ⟨f, hf, ?_⟩
    unfold expectedOutput
    by_cases hd : isDicomLike f.name = true
    · rw [if_pos hd, if_pos (hall f hf hd)]
    · rw [if_neg hd]
  · intro o ho
    rw [houts] at ho
    obtain ⟨f, hf, he⟩ := List.mem_filterMap.mp ho
    refine ⟨f, hf, ?_⟩
    unfold expectedOutput at he
    split_ifs at he with h1 h2 <;> simp_all

/-- Witness for C9: a nested DICOM file and an opaque file are both mirrored
under the output root. -/
theorem C9_directory_mirroring_witness :
    (["out"] ++ ["sub", "x.dcm"])
      ∈ (anonymize_directory true ["out"]
          [⟨["sub", "x.dcm"], "x.dcm", true⟩, ⟨["n.txt"], "n.txt", true⟩]).outputs :=
  (C9_directory_mirroring ["out"]
    [⟨["sub", "x.dcm"], "x.dcm", true⟩, ⟨["n.txt"], "n.txt", true⟩]
    (by decide)).1 ⟨["sub", "x.dcm"], "x.dcm", true⟩ (by decide)

/-- Claim C10: in the in-place variant, when the file reads fine but none of
the listed policy tags is present, `modify_single_dcm` writes nothing, makes
no backup, and returns failure. -/
theorem C10_no_tags_no_write (ds : DicomRecord) (newvalue : String)
    (g : OldAnon.Gen) (assignFails : String → Bool) (backupOk saveOk : Bool)
    (h : ∀ tag ∈ OldAnon.DICOM_TAGS_TO_ANONYMIZE, hasTag ds tag = false) :
    OldAnon.modify_single_dcm (some ds) OldAnon.DICOM_TAGS_TO_ANONYMIZE
        newvalue g assignFails backupOk saveOk
      = { saved := none, backupCreated := false, success := false } := by
  have hfold : List.foldl (OldAnon.oldStep g newvalue assignFails) (ds, false)
      OldAnon.DICOM_TAGS_TO_ANONYMIZE = (ds, false) :=
    oldFold_absent g newvalue assignFails _ ds false h
  unfold OldAnon.modify_single_dcm
  simp only [hfold]
  rfl

/-- Witness for C10: a record holding only SOPInstanceUID (not a policy tag)
is left untouched and reported as failure. -/
theorem C10_no_tags_no_write_witness :
    OldAnon.modify_single_dcm (some [("SOPInstanceUID", "1.2.3")])
        OldAnon.DICOM_TAGS_TO_ANONYMIZE "NEW"
        ⟨"19800101", "20210101", "101010", "M", "44Y"⟩ (fun _ => false) true true
      = { saved := none, backupCreated := false, success := false } :=
  C10_no_tags_no_write [("SOPInstanceUID", "1.2.3")] "NEW"
    ⟨"19800101", "20210101", "101010", "M", "44Y"⟩ (fun _ => false) true true
    (by decide)
